import Mathlib

/-!
Verification of the HTML-to-record extraction pipelines in `crawl_models.py` and
`crawl_paper.py`: the number normalizers, the card extractors, the detail
extractor, and the fetch/run orchestration, shallowly embedded in Lean.

Python built-in string and number operations are modelled over ASCII: `str.lower`
is the ASCII case map, `str.isdigit`/`\d` are ASCII digits, `str.strip` strips the
ASCII whitespace characters. `float(...)` decimal literals are modelled as exact
decimal values (IEEE rounding of literals is not modelled; no claim below depends
on it), with overflow to infinity at magnitude 2^1024.
-/

deriving instance DecidableEq for Except

namespace Crawl

/-- Python exceptions that the modelled code can raise or catch. -/
inductive PyErr where
  | valueError
  | overflowError
  | attributeError
deriving DecidableEq, Repr

/-- Whitespace characters stripped by Python `str.strip()` (ASCII subset). -/
def isPySpace (c : Char) : Bool :=
  c = ' ' || c = '\t' || c = '\n' || c = '\r' || c = '\x0b' || c = '\x0c'

/-- Python `str.strip()` on a character list. -/
def pyStripL (l : List Char) : List Char :=
  ((l.dropWhile isPySpace).reverse.dropWhile isPySpace).reverse

/-- Python `str.strip()` (ASCII whitespace). -/
def pyStrip (s : String) : String := ⟨pyStripL s.toList⟩

/-- ASCII lower-casing of one character, as done by Python `str.lower()`. -/
def pyLowerChar (c : Char) : Char :=
  match c with
  | 'A' => 'a' | 'B' => 'b' | 'C' => 'c' | 'D' => 'd' | 'E' => 'e' | 'F' => 'f'
  | 'G' => 'g' | 'H' => 'h' | 'I' => 'i' | 'J' => 'j' | 'K' => 'k' | 'L' => 'l'
  | 'M' => 'm' | 'N' => 'n' | 'O' => 'o' | 'P' => 'p' | 'Q' => 'q' | 'R' => 'r'
  | 'S' => 's' | 'T' => 't' | 'U' => 'u' | 'V' => 'v' | 'W' => 'w' | 'X' => 'x'
  | 'Y' => 'y' | 'Z' => 'z'
  | c => c

/-- Python `str.lower()` (ASCII case map). -/
def pyLower (s : String) : String := ⟨s.toList.map pyLowerChar⟩

/-- Python `str.replace(",", "")` on a character list: remove every comma. -/
def removeCommasL (l : List Char) : List Char := l.filter (fun c => c ≠ ',')

/-- ASCII decimal digit test (Python `str.isdigit` / regex `\d`, ASCII subset). -/
def isAsciiDigit (c : Char) : Bool := '0' ≤ c && c ≤ '9'

/-- Numeric value of an ASCII digit list. -/
def digitsVal (l : List Char) : Nat :=
  l.foldl (fun acc c => acc * 10 + (c.toNat - '0'.toNat)) 0

/-- Python `str.isdigit()`: nonempty and all digits (ASCII subset). -/
def pyIsDigitL (l : List Char) : Bool := !l.isEmpty && l.all isAsciiDigit

/-- Python `int(s)` on a string: strip whitespace, optional sign, digits.
Underscore digit separators are not modelled. Failure is `ValueError`. -/
def pyIntParse (l : List Char) : Except PyErr Int :=
  match pyStripL l with
  | '+' :: ds => if pyIsDigitL ds then .ok (digitsVal ds) else .error .valueError
  | '-' :: ds => if pyIsDigitL ds then .ok (-(digitsVal ds : Int)) else .error .valueError
  | ds => if pyIsDigitL ds then .ok (digitsVal ds) else .error .valueError

/-- An exact decimal value `num / 10 ^ scale`, the model of a finite Python
float produced from a decimal literal. -/
structure DecVal where
  num : Int
  scale : Nat
deriving DecidableEq, Repr

/-- The value of a Python float: a finite decimal, a signed infinity, or NaN. -/
inductive PyFloat where
  | finite (v : DecVal)
  | inf
  | ninf
  | nan
deriving DecidableEq, Repr

/-- The literal value of 2^1024, the first magnitude beyond the double range. -/
def doubleLimit : Nat :=
  179769313486231590772930519078902473361797697894230657273430081157732675805500963132708477322407536021120113879871393357658789768814416622492847430639474124377767893424865485276302219601246094119453082952085005768838150682342462881473913110540827237163350510684586298239947245938479716304835356329624224137216

/-- Classify a decimal value as a Python float, overflowing to infinity at
magnitude 2^1024 (the rounding slack at the exact boundary is not modelled). -/
def mkFloat (v : DecVal) : PyFloat :=
  if ((doubleLimit * 10 ^ v.scale : Nat) : Int) ≤ v.num then .inf
  else if v.num ≤ -((doubleLimit * 10 ^ v.scale : Nat) : Int) then .ninf
  else .finite v

/-- Mantissa and exponent of a float literal: integer digits `ip`, fraction
digits `fp`, and the remaining exponent text `r2`. -/
def parseDecimalCore (ip fp r2 : List Char) : Option DecVal :=
  if ip.isEmpty && fp.isEmpty then none
  else
    match r2 with
    | [] => some ⟨(digitsVal (ip ++ fp) : Int), fp.length⟩
    | 'e' :: es | 'E' :: es =>
      match es with
      | '-' :: ds =>
        if pyIsDigitL ds then some ⟨(digitsVal (ip ++ fp) : Int), fp.length + digitsVal ds⟩
        else none
      | '+' :: ds =>
        if pyIsDigitL ds then
          some ⟨(digitsVal (ip ++ fp) : Int) * ((10 ^ digitsVal ds : Nat) : Int), fp.length⟩
        else none
      | ds =>
        if pyIsDigitL ds then
          some ⟨(digitsVal (ip ++ fp) : Int) * ((10 ^ digitsVal ds : Nat) : Int), fp.length⟩
        else none
    | _ => none

/-- Parse the digits/dot/exponent body of a float literal into an exact decimal. -/
def parseDecimal (cs : List Char) : Option DecVal :=
  match cs.dropWhile isAsciiDigit with
  | '.' :: rest =>
    parseDecimalCore (cs.takeWhile isAsciiDigit) (rest.takeWhile isAsciiDigit)
      (rest.dropWhile isAsciiDigit)
  | r1 => parseDecimalCore (cs.takeWhile isAsciiDigit) [] r1

/-- Negate a decimal value. -/
def decNeg (v : DecVal) : DecVal := ⟨-v.num, v.scale⟩

/-- The unsigned part of Python `float(s)`: one of the special words `inf`,
`infinity`, `nan` (case-insensitive) or a decimal literal. -/
def pyFloatPos (body : List Char) : Except PyErr PyFloat :=
  if body.map pyLowerChar = "inf".toList || body.map pyLowerChar = "infinity".toList then
    .ok .inf
  else if body.map pyLowerChar = "nan".toList then .ok .nan
  else
    match parseDecimal body with
    | some v => .ok (mkFloat v)
    | none => .error .valueError

/-- Python `float(s)` on a string: strip whitespace, optional sign, then a
decimal literal or a special word; a leading `-` negates the value (`-nan` is
still NaN). Failure is `ValueError`. -/
def pyFloatParse (l : List Char) : Except PyErr PyFloat :=
  match pyStripL l with
  | '-' :: r =>
    if r.map pyLowerChar = "inf".toList || r.map pyLowerChar = "infinity".toList then .ok .ninf
    else if r.map pyLowerChar = "nan".toList then .ok .nan
    else
      match parseDecimal r with
      | some v => .ok (mkFloat (decNeg v))
      | none => .error .valueError
  | '+' :: r => pyFloatPos r
  | r => pyFloatPos r

/-- Multiplication of a Python float by a positive integer literal. -/
def pyFloatMulNat (f : PyFloat) (n : Nat) : PyFloat :=
  match f with
  | .finite v => mkFloat ⟨v.num * (n : Int), v.scale⟩
  | .inf => .inf
  | .ninf => .ninf
  | .nan => .nan

/-- Truncation of a decimal value toward zero, as in Python `int(...)`. -/
def decTrunc (v : DecVal) : Int :=
  if v.num < 0 then -((((-v.num).toNat / 10 ^ v.scale : Nat) : Int))
  else (((v.num.toNat / 10 ^ v.scale : Nat) : Int))

/-- Python `int(f)` on a float: truncate finite values toward zero; an infinity
raises `OverflowError`, NaN raises `ValueError`. -/
def pyIntOfFloat (f : PyFloat) : Except PyErr Int :=
  match f with
  | .finite v => .ok (decTrunc v)
  | .inf => .error .overflowError
  | .ninf => .error .overflowError
  | .nan => .error .valueError

/-- Python `str.endswith` for a one-character suffix, on a character list. -/
def endsWithChar (l : List Char) (c : Char) : Bool := l.getLast? = some c

/-- The body of the `try:` block of the module-level `parse_number` in
`crawl_models.py`, applied to the lowered and stripped text. -/
def parseNumberBodyModels (t : List Char) : Except PyErr Int :=
  if endsWithChar t 'k' then do
    let f ← pyFloatParse t.dropLast
    pyIntOfFloat (pyFloatMulNat f 1000)
  else if endsWithChar t 'm' then do
    let f ← pyFloatParse t.dropLast
    pyIntOfFloat (pyFloatMulNat f 1000000)
  else
    pyIntParse (removeCommasL t)

/-- `parse_number` from `crawl_models.py`: empty text gives `None`; the text is
lowered then stripped; a `k`/`m` suffix multiplies the float prefix by 10^3/10^6;
otherwise commas are removed and the text parsed as an int. Only `ValueError` is
caught (giving `None`); any other exception propagates to the caller. -/
def parse_number (text : String) : Except PyErr (Option Int) :=
  if text = "" then .ok none
  else
    match parseNumberBodyModels (pyStripL (text.toList.map pyLowerChar)) with
    | .ok v => .ok (some v)
    | .error .valueError => .ok none
    | .error e => .error e

/-- The body of the `try:` block of `CrawTrendingPapers.parse_number` in
`crawl_paper.py`, applied to the stripped, lowered, comma-free text. -/
def parseNumberBodyPapers (t : List Char) : Except PyErr Int :=
  if endsWithChar t 'k' then do
    let f ← pyFloatParse t.dropLast
    pyIntOfFloat (pyFloatMulNat f 1000)
  else if endsWithChar t 'm' then do
    let f ← pyFloatParse t.dropLast
    pyIntOfFloat (pyFloatMulNat f 1000000)
  else if pyIsDigitL t then pyIntParse t
  else pyIntParse t

/-- `CrawTrendingPapers.parse_number` from `crawl_paper.py`: empty text gives
`None`; the text is stripped, lowered, and commas removed before the suffix
check; a bare `except:` catches every exception, so the function is total. -/
def parse_number_papers (text : String) : Option Int :=
  if text = "" then none
  else
    match parseNumberBodyPapers (removeCommasL ((pyStripL text.toList).map pyLowerChar)) with
    | .ok v => some v
    | .error _ => none

/-! HTML documents, as parsed by BeautifulSoup, are modelled as forests of
element and text nodes in first-child/next-sibling form (`Forest.elem` carries
its child forest and the forest of its following siblings). Every node is
addressed by its path, the list of child indices from the document root, and
`flatten` lists all nodes with their paths in document (preorder) order. -/

/-- An HTML node forest: a sibling chain of text and element nodes. -/
inductive Forest where
  | nil : Forest
  | text (s : String) (rest : Forest) : Forest
  | elem (tag : String) (attrs : List (String × String)) (children : Forest) (rest : Forest) : Forest
deriving DecidableEq, Repr

/-- One node: a string (bs4 NavigableString) or an element with its subtree. -/
inductive Entry where
  | text (s : String)
  | elem (tag : String) (attrs : List (String × String)) (children : Forest)
deriving DecidableEq, Repr

/-- All nodes of a forest in document (preorder) order, with their paths.
`pfx` is the parent path and `i` the index of the first sibling. -/
def flatten (pfx : List Nat) (i : Nat) : Forest → List (List Nat × Entry)
  | .nil => []
  | .text s r => (pfx ++ [i], .text s) :: flatten pfx (i + 1) r
  | .elem t a c r =>
    (pfx ++ [i], .elem t a c) :: (flatten (pfx ++ [i]) 0 c ++ flatten pfx (i + 1) r)

/-- The tag name of a node (text nodes have none). -/
def tagOf : Entry → String
  | .text _ => ""
  | .elem t _ _ => t

/-- The attribute list of a node. -/
def attrsOf : Entry → List (String × String)
  | .text _ => []
  | .elem _ a _ => a

/-- The child forest of a node. -/
def childrenOf : Entry → Forest
  | .text _ => .nil
  | .elem _ _ c => c

/-- Attribute lookup on a node (bs4 `tag["name"]` / `tag.has_attr`). -/
def entryAttr (e : Entry) (n : String) : Option String :=
  ((attrsOf e).find? (fun kv => kv.1 == n)).map (fun kv => kv.2)

/-- Split an attribute value into whitespace-separated tokens, as bs4 does for
the multi-valued `class` attribute. -/
def splitWsAux : List Char → List Char → List String
  | [], acc => if acc.isEmpty then [] else [⟨acc.reverse⟩]
  | c :: cs, acc =>
    if isPySpace c then
      (if acc.isEmpty then splitWsAux cs [] else ⟨acc.reverse⟩ :: splitWsAux cs [])
    else splitWsAux cs (c :: acc)

/-- Class tokens of an attribute value. -/
def classTokens (s : String) : List String := splitWsAux s.toList []

/-- Join strings with single spaces (bs4 matches a pattern against the
space-joined token list of a multi-valued attribute). -/
def joinSpace : List String → String
  | [] => ""
  | [s] => s
  | s :: r => s ++ " " ++ joinSpace r

/-- Matching of the regex patterns used by the crawlers, whose only
metacharacter is `.` (any character except newline), anchored at a position. -/
def patMatchAt : List Char → List Char → Bool
  | [], _ => true
  | _ :: _, [] => false
  | p :: ps, c :: cs => (if p = '.' then c ≠ '\n' else p = c) && patMatchAt ps cs

/-- `re.search` for a dot-literal pattern: a match at some position. -/
def patSearch (pat : String) (s : String) : Bool :=
  s.toList.tails.any (patMatchAt pat.toList)

/-- bs4 `attrs={"class": re.compile(pat)}`: the pattern is searched against each
class token and against the space-joined token string; since every token is a
substring of the joined string, this equals a search on the joined string. -/
def classSearch (pat : String) (attrs : List (String × String)) : Bool :=
  match (attrs.find? (fun kv => kv.1 == "class")).map (fun kv => kv.2) with
  | none => false
  | some s => patSearch pat (joinSpace (classTokens s))

/-- bs4 `class_="tok"`: some class token equals the given string. -/
def hasClassToken (attrs : List (String × String)) (tok : String) : Bool :=
  match (attrs.find? (fun kv => kv.1 == "class")).map (fun kv => kv.2) with
  | none => false
  | some s => (classTokens s).contains tok

/-- Search a dot-literal pattern against an optional attribute value. -/
def attrValSearch (pat : String) (v : Option String) : Bool :=
  match v with
  | some s => patSearch pat s
  | none => false

/-- bs4 `tag.string`: the single text child, through single-element chains. -/
def tagStringF : Forest → Option String
  | .text s .nil => some s
  | .elem _ _ c .nil => tagStringF c
  | _ => none

/-- `tag.string` of a node. -/
def entryString : Entry → Option String
  | .text s => some s
  | .elem _ _ c => tagStringF c

/-- The text nodes of a node list, in order. -/
def textEntries (l : List (List Nat × Entry)) : List String :=
  l.filterMap (fun pe => match pe.2 with | .text s => some s | _ => none)

/-- bs4 `tag.text` / `get_text()`: all descendant strings concatenated in
document order. -/
def entryText : Entry → String
  | .text s => s
  | .elem _ _ c => String.join (textEntries (flatten [] 0 c))

/-- All nodes of a document with their paths, in document order. -/
def allEntries (soup : Forest) : List (List Nat × Entry) := flatten [] 0 soup

/-- bs4 `find` inside a node at path `p`: the first descendant, in document
order, satisfying the predicate (the node itself is not considered). -/
def findDescIn (p : List Nat) (e : Entry) (pred : Entry → Bool) :
    Option (List Nat × Entry) :=
  ((flatten p 0 (childrenOf e)).filter (fun pe => pred pe.2)).head?

/-- bs4 `find_next(string=True)` from the node at path `p`: the first text node
strictly after it in document order, anywhere in the document. -/
def findNextString (soup : Forest) (p : List Nat) : Option String :=
  match (allEntries soup).dropWhile (fun pe => pe.1 != p) with
  | [] => none
  | _ :: rest => (textEntries rest).head?

/-- Python `str.strip("/")`: remove leading and trailing slashes. -/
def stripSlashes (s : String) : String :=
  ⟨((s.toList.dropWhile (fun c => c = '/')).reverse.dropWhile (fun c => c = '/')).reverse⟩

/-! Date handling: `datetime.fromisoformat` (pre-3.11 grammar, `T` or space as
the date/time separator, offsets of the form `±HH:MM`), `strftime("%Y-%m-%d")`,
and `strptime(_, "%b %d, %Y")` with CPython's `_strptime` regex semantics. -/

/-- Exactly two digits from the front. -/
def digits2 : List Char → Option (Nat × List Char)
  | a :: b :: r =>
    if isAsciiDigit a && isAsciiDigit b then some (digitsVal [a, b], r) else none
  | _ => none

/-- Gregorian leap year. -/
def isLeap (y : Nat) : Bool := (y % 4 = 0 && y % 100 ≠ 0) || y % 400 = 0

/-- Days in a month. -/
def daysInMonth (y m : Nat) : Nat :=
  if m = 2 then (if isLeap y then 29 else 28)
  else if m = 4 || m = 6 || m = 9 || m = 11 then 30
  else 31

/-- Validity of a calendar date as checked by `datetime`. -/
def validYmd (y m d : Nat) : Bool :=
  1 ≤ y && y ≤ 9999 && 1 ≤ m && m ≤ 12 && 1 ≤ d && d ≤ daysInMonth y m

/-- A `±HH:MM` timezone offset. -/
def isoOffset : List Char → Bool
  | c :: r =>
    (c = '+' || c = '-') &&
      (match digits2 r with
       | some (oh, ':' :: r2) =>
         oh ≤ 23 && (match digits2 r2 with | some (om, []) => om ≤ 59 | _ => false)
       | _ => false)
  | [] => false

/-- After the seconds: end, a 3- or 6-digit fraction, or an offset. -/
def isoAfterSS (l : List Char) : Bool :=
  match l with
  | [] => true
  | '.' :: r =>
    let ds := r.takeWhile isAsciiDigit
    let rr := r.dropWhile isAsciiDigit
    (ds.length = 3 || ds.length = 6) && (rr.isEmpty || isoOffset rr)
  | _ => isoOffset l

/-- After the minutes: end, seconds, or an offset. -/
def isoAfterMM (l : List Char) : Bool :=
  match l with
  | [] => true
  | ':' :: r =>
    (match digits2 r with
     | some (ss, r2) => ss ≤ 59 && isoAfterSS r2
     | none => false)
  | _ => isoOffset l

/-- The time-of-day part `HH[:MM[:SS[.fff[fff]]]][±HH:MM]`. -/
def isoTimePart (l : List Char) : Bool :=
  match digits2 l with
  | some (hh, r) =>
    hh ≤ 23 &&
      (match r with
       | [] => true
       | ':' :: r2 =>
         (match digits2 r2 with
          | some (mm, r3) => mm ≤ 59 && isoAfterMM r3
          | none => false)
       | _ => isoOffset r)
  | none => false

/-- `datetime.fromisoformat`: `YYYY-MM-DD`, optionally followed by a separator
and a time part; returns the date components, or `none` for a `ValueError`. -/
def pyFromIso (s : String) : Option (Nat × Nat × Nat) :=
  match s.toList with
  | y1 :: y2 :: y3 :: y4 :: '-' :: m1 :: m2 :: '-' :: d1 :: d2 :: rest =>
    if [y1, y2, y3, y4, m1, m2, d1, d2].all isAsciiDigit then
      let y := digitsVal [y1, y2, y3, y4]
      let m := digitsVal [m1, m2]
      let d := digitsVal [d1, d2]
      if validYmd y m d then
        match rest with
        | [] => some (y, m, d)
        | sep :: t => if (sep = 'T' || sep = ' ') && isoTimePart t then some (y, m, d) else none
      else none
    else none
  | _ => none

/-- Python `str.replace(old, new)`, leftmost non-overlapping, with fuel. -/
def replaceAllAux (pat rep : List Char) : Nat → List Char → List Char
  | 0, cs => cs
  | _ + 1, [] => []
  | n + 1, c :: rest =>
    if pat.isPrefixOf (c :: rest) then rep ++ replaceAllAux pat rep n ((c :: rest).drop pat.length)
    else c :: replaceAllAux pat rep n rest

/-- Python `str.replace(old, new)` for a nonempty `old`. -/
def replaceAll (s pat rep : String) : String :=
  if pat = "" then s else ⟨replaceAllAux pat.toList rep.toList s.toList.length s.toList⟩

/-- Zero-pad to two digits. -/
def pad2 (n : Nat) : String := if n < 10 then "0" ++ toString n else toString n

/-- Zero-pad to four digits. -/
def pad4 (n : Nat) : String :=
  if n < 10 then "000" ++ toString n
  else if n < 100 then "00" ++ toString n
  else if n < 1000 then "0" ++ toString n
  else toString n

/-- `strftime("%Y-%m-%d")` on date components. -/
def fmtYmd : Nat × Nat × Nat → String
  | (y, m, d) => pad4 y ++ "-" ++ pad2 m ++ "-" ++ pad2 d

/-- ASCII letter test (regex `[A-Za-z]`). -/
def isAsciiAlpha (c : Char) : Bool := ('a' ≤ c && c ≤ 'z') || ('A' ≤ c && c ≤ 'Z')

/-- One-or-more whitespace (regex `\s+`); returns the remainder. -/
def wsPlus (l : List Char) : Option (List Char) :=
  if (l.takeWhile isPySpace).isEmpty then none else some (l.dropWhile isPySpace)

/-- The C-locale month abbreviations matched case-insensitively by `%b`. -/
def monthAbbrs : List (String × Nat) :=
  [("jan", 1), ("feb", 2), ("mar", 3), ("apr", 4), ("may", 5), ("jun", 6),
   ("jul", 7), ("aug", 8), ("sep", 9), ("oct", 10), ("nov", 11), ("dec", 12)]

/-- Match a month abbreviation at the front (case-insensitive). -/
def matchMonth : List Char → Option (Nat × List Char)
  | a :: b :: c :: r =>
    let key : List Char := [pyLowerChar a, pyLowerChar b, pyLowerChar c]
    match monthAbbrs.find? (fun kv => kv.1.toList == key) with
    | some kv => some (kv.2, r)
    | none => none
  | _ => none

/-- The two-digit alternatives of the `%d` pattern `3[01]|[12]\d|0[1-9]|[1-9]`. -/
def twoDigitDay (a b : Char) : Bool :=
  (a = '3' && (b = '0' || b = '1')) ||
  ((a = '1' || a = '2') && isAsciiDigit b) ||
  (a = '0' && isAsciiDigit b && b ≠ '0')

/-- After the day: `,`, whitespace, exactly four digits, end of string; the
resulting date must be a valid `datetime`. -/
def strptimeTail (m d : Nat) (r : List Char) : Option (Nat × Nat × Nat) :=
  match r with
  | ',' :: r3 =>
    match wsPlus r3 with
    | none => none
    | some r4 =>
      match r4 with
      | [c1, c2, c3, c4] =>
        if [c1, c2, c3, c4].all isAsciiDigit then
          let y := digitsVal [c1, c2, c3, c4]
          if 1 ≤ y && d ≤ daysInMonth y m then some (y, m, d) else none
        else none
      | _ => none
  | _ => none

/-- `datetime.strptime(s, "%b %d, %Y")`: month abbreviation, whitespace, a one-
or two-digit day (with regex backtracking), comma, whitespace, four-digit year,
matching the whole string; `none` models the `ValueError`. -/
def strptimeBdY (s : String) : Option (Nat × Nat × Nat) :=
  match matchMonth s.toList with
  | none => none
  | some (m, r1) =>
    match wsPlus r1 with
    | none => none
    | some r2 =>
      match r2 with
      | a :: b :: r5 =>
        if twoDigitDay a b then
          match strptimeTail m (digitsVal [a, b]) r5 with
          | some v => some v
          | none =>
            if isAsciiDigit a && a ≠ '0' then strptimeTail m (digitsVal [a]) (b :: r5) else none
        else if isAsciiDigit a && a ≠ '0' then strptimeTail m (digitsVal [a]) (b :: r5)
        else none
      | [a] => if isAsciiDigit a && a ≠ '0' then strptimeTail m (digitsVal [a]) [] else none
      | [] => none

/-- A comma, whitespace, then four digits (the tail of the date-like pattern). -/
def strptimeCommaYear (r : List Char) : Bool :=
  match r with
  | ',' :: r2 =>
    (match wsPlus r2 with
     | some r3 => (r3.take 4).length = 4 && (r3.take 4).all isAsciiDigit
     | none => false)
  | _ => false

/-- A prefix-anchored match of `[A-Za-z]{3,9}\s+\d{1,2},\s+\d{4}`. -/
def dateLikeFrom (t : List Char) : Bool :=
  (List.range 7).any (fun j =>
    let k := j + 3
    (t.take k).length = k && (t.take k).all isAsciiAlpha &&
      (match wsPlus (t.drop k) with
       | none => false
       | some r =>
         match r with
         | a :: rest =>
           isAsciiDigit a &&
             (strptimeCommaYear rest ||
               (match rest with
                | b :: rest2 => isAsciiDigit b && strptimeCommaYear rest2
                | [] => false))
         | [] => false))

/-- Substring containment. -/
def containsSubstr (s pat : List Char) : Bool := s.tails.any pat.isPrefixOf

/-- `re.search` for the published-date pattern
`Published|[A-Za-z]{3,9}\s+\d{1,2},\s+\d{4}` used on span strings. -/
def pubSearch (s : String) : Bool :=
  containsSubstr s.toList "Published".toList || s.toList.tails.any dateLikeFrom

/-! The models card extractor, `CrawModels.parse_models`. -/

/-- A row of the models table. -/
structure ModelRec where
  model_id : String
  url : String
  task : Option String
  parameters : Option String
  updated : Option String
  downloads : Option Int
  likes : Option Int
deriving DecidableEq, Repr

/-- `soup.find_all("article", class_="overview-card-wrapper")`. -/
def isModelCard (e : Entry) : Bool :=
  tagOf e == "article" && hasClassToken (attrsOf e) "overview-card-wrapper"

/-- `article.find("a", href=True)`. -/
def isAhref (e : Entry) : Bool := tagOf e == "a" && (entryAttr e "href").isSome

/-- `a_tag.find("h4")`. -/
def isH4 (e : Entry) : Bool := tagOf e == "h4"

/-- `article.find("svg", attrs={"class": re.compile("mr-1.5")})`. -/
def isSvgTask (e : Entry) : Bool := tagOf e == "svg" && classSearch "mr-1.5" (attrsOf e)

/-- `article.find("span", title=re.compile("Number of parameters"))`. -/
def isParamSpan (e : Entry) : Bool :=
  tagOf e == "span" && attrValSearch "Number of parameters" (entryAttr e "title")

/-- `article.find("time")`. -/
def isTimeTag (e : Entry) : Bool := tagOf e == "time"

/-- `article.find("svg", attrs={"class": re.compile("w-3 text-gray-400 mr-0.5")})`. -/
def isSvgDownloads (e : Entry) : Bool :=
  tagOf e == "svg" && classSearch "w-3 text-gray-400 mr-0.5" (attrsOf e)

/-- `article.find("svg", attrs={"class": re.compile("w-3 text-gray-400 mr-1")})`. -/
def isSvgLikes (e : Entry) : Bool :=
  tagOf e == "svg" && classSearch "w-3 text-gray-400 mr-1" (attrsOf e)

/-- The `task` field: if the marker svg is found, `find_next(string=True)` is
called and `.strip()` applied to its result; a missing next string is the
`None.strip()` `AttributeError` of the source. -/
def taskField (soup : Forest) (p : List Nat) (e : Entry) : Except PyErr (Option String) :=
  match findDescIn p e isSvgTask with
  | none => .ok none
  | some (sp, _) =>
    match findNextString soup sp with
    | none => .error .attributeError
    | some s => .ok (some (pyStrip s))

/-- The `parameters` field: text of the parameter badge, stripped. -/
def paramsField (p : List Nat) (e : Entry) : Option String :=
  match findDescIn p e isParamSpan with
  | none => none
  | some (_, sn) => some (pyStrip (entryText sn))

/-- The `updated` field: if a `time` tag with a `datetime` attribute is found,
`fromisoformat` is applied to the attribute with `Z` replaced by `+00:00` and
the result formatted `%Y-%m-%d`; a malformed value is an uncaught `ValueError`. -/
def updatedField (p : List Nat) (e : Entry) : Except PyErr (Option String) :=
  match findDescIn p e isTimeTag with
  | none => .ok none
  | some (_, tn) =>
    match entryAttr tn "datetime" with
    | none => .ok none
    | some d =>
      match pyFromIso (replaceAll d "Z" "+00:00") with
      | none => .error .valueError
      | some ymd => .ok (some (fmtYmd ymd))

/-- The `downloads` field: the string after the marker svg, if truthy, passed
through `parse_number` (whose `OverflowError` would propagate). -/
def downloadsField (soup : Forest) (p : List Nat) (e : Entry) : Except PyErr (Option Int) :=
  match findDescIn p e isSvgDownloads with
  | none => .ok none
  | some (sp, _) =>
    match findNextString soup sp with
    | none => .ok none
    | some s => if s = "" then .ok none else parse_number s

/-- The `likes` field: like `downloads`, but overridden by `int(text.strip())`
when the stripped text is all digits. -/
def likesField (soup : Forest) (p : List Nat) (e : Entry) : Except PyErr (Option Int) :=
  match findDescIn p e isSvgLikes with
  | none => .ok none
  | some (sp, _) =>
    match findNextString soup sp with
    | none => .ok none
    | some s =>
      if s = "" then .ok none
      else do
        let l0 ← parse_number s
        if pyIsDigitL (pyStrip s).toList then .ok (some ((digitsVal (pyStrip s).toList : Int)))
        else .ok l0

/-- One iteration of the card loop of `parse_models`: a card without a link is
skipped (`continue`); otherwise the `model_id` is the stripped `h4` text or, in
its absence, the href stripped of slashes, and the remaining fields are looked
up independently (exceptions propagate in source order). -/
def recordOfArticle (soup : Forest) (p : List Nat) (e : Entry) : Except PyErr (Option ModelRec) :=
  match findDescIn p e isAhref with
  | none => .ok none
  | some (ap, an) =>
    let href := (entryAttr an "href").getD ""
    let model_id :=
      match findDescIn ap an isH4 with
      | some (_, h4) => pyStrip (entryText h4)
      | none => stripSlashes href
    do
      let task ← taskField soup p e
      let updated ← updatedField p e
      let downloads ← downloadsField soup p e
      let likes ← likesField soup p e
      .ok (some { model_id, url := "https://huggingface.co" ++ href, task,
                  parameters := paramsField p e, updated, downloads, likes })

/-- The cards iterated by `parse_models`, in document order. -/
def modelCards (soup : Forest) : List (List Nat × Entry) :=
  (allEntries soup).filter (fun pe => isModelCard pe.2)

/-- `CrawModels.parse_models`: one record appended per card with a link, in
document order; an exception in any card aborts the whole parse. -/
def parse_models (soup : Forest) : Except PyErr (List ModelRec) :=
  (modelCards soup).foldlM
    (fun acc pe => do
      match ← recordOfArticle soup pe.1 pe.2 with
      | none => .ok acc
      | some r => .ok (acc ++ [r]))
    []

/-- A fully populated model card, used to sanity-check the extractor. -/
def exModelArticle : Forest :=
  .elem "article" [("class", "overview-card-wrapper")]
    (.elem "a" [("href", "/google/gemma")]
      (.elem "h4" [] (.text "google/gemma" .nil) .nil)
      (.elem "svg" [("class", "mr-1.5 flex-none")] .nil
        (.text " Text Generation "
          (.elem "span" [("title", "Number of parameters: 22B")] (.text "22B" .nil)
            (.elem "time" [("datetime", "2024-05-01T12:00:00Z")] .nil
              (.elem "svg" [("class", "w-3 text-gray-400 mr-0.5")] .nil
                (.text "100k"
                  (.elem "svg" [("class", "w-3 text-gray-400 mr-1")] .nil
                    (.text "665" .nil)))))))))
    .nil


/-- A model card whose link has no `h4` label, parameterized by the href. -/
def articleNoH4 (href : String) : Forest :=
  .elem "article" [("class", "overview-card-wrapper")]
    (.elem "a" [("href", href)] .nil .nil) .nil


/-! The papers card extractor, `CrawTrendingPapers.parse_trending_cards`. The
`papers` dictionary is modelled as an association list in insertion order. -/

/-- The partial record held per paper URL. -/
structure PaperCard where
  paper_url : String
  github : Option String
  arxiv : Option String
  upvotes : Option Int
  published : Option String
  github_stars : Option Int
deriving DecidableEq, Repr

/-- The record a URL is initialised with on first sight. -/
def initCard (url : String) : PaperCard := ⟨url, none, none, none, none, none⟩

/-- The `papers` dict: URL keys with their records, in insertion order. -/
abbrev PapersDict := List (String × PaperCard)

/-- Key membership (`paper_url not in papers`). -/
def hasKey (d : PapersDict) (k : String) : Bool := (d.find? (fun e => e.1 == k)).isSome

/-- In-place update of the record stored under a key. -/
def updCard (d : PapersDict) (k : String) (f : PaperCard → PaperCard) : PapersDict :=
  d.map (fun e => if e.1 == k then (e.1, f e.2) else e)

/-- Insert a fresh record if the key is absent. -/
def ensureKey (d : PapersDict) (url : String) : PapersDict :=
  if hasKey d url then d else d ++ [(url, initCard url)]

/-- `article.select_one("a[href^='/papers/']")`. -/
def isPapersLink (e : Entry) : Bool :=
  tagOf e == "a" &&
    (match entryAttr e "href" with
     | some h => "/papers/".toList.isPrefixOf h.toList
     | none => false)

/-- `article.select_one(".font-semibold.text-orange-500")`. -/
def isUpvoteTag (e : Entry) : Bool :=
  hasClassToken (attrsOf e) "font-semibold" && hasClassToken (attrsOf e) "text-orange-500"

/-- `article.find("span", string=re.compile(r"Published|[A-Za-z]{3,9}\s+\d{1,2},\s+\d{4}"))`. -/
def isPubSpan (e : Entry) : Bool :=
  tagOf e == "span" &&
    (match entryString e with
     | some s => pubSearch s
     | none => false)

/-- `article.find("a", href=re.compile(r"github.com"))`. -/
def isGithubLink (e : Entry) : Bool := tagOf e == "a" && attrValSearch "github.com" (entryAttr e "href")

/-- `article.find("a", href=re.compile(r"arxiv.org"))`. -/
def isArxivLink (e : Entry) : Bool := tagOf e == "a" && attrValSearch "arxiv.org" (entryAttr e "href")

/-- `github_link.find("span", string=re.compile(r"\d"))`. -/
def isStarSpan (e : Entry) : Bool :=
  tagOf e == "span" &&
    (match entryString e with
     | some s => s.toList.any isAsciiDigit
     | none => false)

/-- Upvotes: if the marker is found, its text is normalized and assigned. -/
def stepUpvotes (p : List Nat) (e : Entry) (url : String) (d : PapersDict) : PapersDict :=
  match findDescIn p e isUpvoteTag with
  | none => d
  | some (_, un) => updCard d url (fun c => { c with upvotes := parse_number_papers (entryText un) })

/-- Published date: the span's text is stripped, the literal `Published on `
removed, and parsed with `strptime("%b %d, %Y")`; on failure the (stripped,
prefix-removed) text is kept verbatim. -/
def stepPublished (p : List Nat) (e : Entry) (url : String) (d : PapersDict) : PapersDict :=
  match findDescIn p e isPubSpan with
  | none => d
  | some (_, sn) =>
    let s := (entryString sn).getD ""
    let pubText := replaceAll (pyStrip s) "Published on " ""
    match strptimeBdY pubText with
    | some ymd => updCard d url (fun c => { c with published := some (fmtYmd ymd) })
    | none => updCard d url (fun c => { c with published := some pubText })

/-- GitHub link and star count: the href is assigned when the link is found; a
digit-bearing span inside it supplies the star count. -/
def stepGithub (p : List Nat) (e : Entry) (url : String) (d : PapersDict) : PapersDict :=
  match findDescIn p e isGithubLink with
  | none => d
  | some (gp, gn) =>
    let d1 := updCard d url (fun c => { c with github := entryAttr gn "href" })
    match findDescIn gp gn isStarSpan with
    | none => d1
    | some (_, st) =>
      updCard d1 url (fun c => { c with github_stars := parse_number_papers (entryText st) })

/-- arXiv link: the href is assigned when the link is found. -/
def stepArxiv (p : List Nat) (e : Entry) (url : String) (d : PapersDict) : PapersDict :=
  match findDescIn p e isArxivLink with
  | none => d
  | some (_, axn) => updCard d url (fun c => { c with arxiv := entryAttr axn "href" })

/-- One iteration of the article loop of `parse_trending_cards`: an article
without a `/papers/` link is skipped; otherwise the URL's record is created if
absent and each field marker found in this article overwrites that field. -/
def processArticle (d : PapersDict) (p : List Nat) (e : Entry) : PapersDict :=
  match findDescIn p e isPapersLink with
  | none => d
  | some (_, an) =>
    let href := (entryAttr an "href").getD ""
    let url := "https://huggingface.co" ++ href
    stepArxiv p e url (stepGithub p e url (stepPublished p e url (stepUpvotes p e url (ensureKey d url))))

/-- `soup.find_all("article")` of the trending page. -/
def paperArticles (soup : Forest) : List (List Nat × Entry) :=
  (allEntries soup).filter (fun pe => tagOf pe.2 == "article")

/-- `CrawTrendingPapers.parse_trending_cards`. -/
def parse_trending_cards (soup : Forest) : PapersDict :=
  (paperArticles soup).foldl (fun d pe => processArticle d pe.1 pe.2) []

/-- bs4 `find` over the whole document. -/
def findInDoc (soup : Forest) (pred : Entry → Bool) : Option (List Nat × Entry) :=
  ((allEntries soup).filter (fun pe => pred pe.2)).head?

/-- `CrawTrendingPapers.parse_paper_details`: first `h1` text and first `p`
text, stripped; `"N/A"` when the element is missing. -/
def parse_paper_details (soup : Forest) : String × String :=
  let title :=
    match findInDoc soup (fun e => tagOf e == "h1") with
    | some (_, tn) => pyStrip (entryText tn)
    | none => "N/A"
  let abstract :=
    match findInDoc soup (fun e => tagOf e == "p") with
    | some (_, an) => pyStrip (entryText an)
    | none => "N/A"
  (title, abstract)

/-! The fetch layer and the papers pipeline `run`. -/

/-- The transport-level failure of a fetch. -/
inductive FetchErr where
  | netError
deriving DecidableEq, Repr

/-- Outcome of one HTTP GET: a completed response (status code and body text),
or a transport/timeout failure. -/
inductive HttpOutcome where
  | response (status : Nat) (body : String)
  | netFail
deriving DecidableEq, Repr

/-- `fetch_url` (textually identical in both crawlers): `session.get(url)`
followed by `await response.text()`. The body text is returned for any
completed response whatever its status code — the source never consults
`response.status` and never calls `raise_for_status` — and only a
transport-level failure raises. -/
def fetch_url : HttpOutcome → Except FetchErr String
  | .response _ body => .ok body
  | .netFail => .error .netError

/-- A row of the papers table assembled by `run`. -/
structure PaperRow where
  title : String
  abstract : String
  url : String
  github : Option String
  arxiv : Option String
  upvotes : Option Int
  published : Option String
  github_stars : Option Int
deriving DecidableEq, Repr

/-- The trending listing URL. -/
def trendingUrl : String := "https://huggingface.co/papers/trending"

/-- `asyncio.gather` over one fetch task per URL: all results in task order, or
the batch as a whole fails if any single fetch fails. -/
def gatherFetch (fetch : String → Except FetchErr Forest) :
    List String → Except FetchErr (List Forest)
  | [] => .ok []
  | u :: us => do
    let p ← fetch u
    let ps ← gatherFetch fetch us
    .ok (p :: ps)

/-- `CrawTrendingPapers.run`, over an abstract fetch-and-parse capability
(`fetch` returns the already-parsed page; BeautifulSoup parsing of the raw
text is not modelled). The returned first component is the list of detail URLs
for which a fetch task is created, in dictionary insertion order. Each fetched
page is zipped back onto its originating card. -/
def runPapers (fetch : String → Except FetchErr Forest) :
    Except FetchErr (List String × List PaperRow) := do
  let page ← fetch trendingUrl
  let cards := (parse_trending_cards page).map (fun e => e.2)
  let urls := cards.map (fun c => c.paper_url)
  let pages ← gatherFetch fetch urls
  let rows := (cards.zip pages).map (fun cp =>
    let td := parse_paper_details cp.2
    { title := td.1, abstract := td.2, url := cp.1.paper_url, github := cp.1.github,
      arxiv := cp.1.arxiv, upvotes := cp.1.upvotes, published := cp.1.published,
      github_stars := cp.1.github_stars : PaperRow })
  .ok (urls, rows)

/-- Two card fragments for the same paper URL: the first supplies upvotes and a
published date, the second a GitHub link with stars and an arXiv link. -/
def exPaperPage : Forest :=
  .elem "article" []
    (.elem "a" [("href", "/papers/2401.001")] .nil
      (.elem "div" [("class", "font-semibold text-orange-500")] (.text "5" .nil)
        (.elem "span" [] (.text "Published on Jan 5, 2024" .nil) .nil)))
    (.elem "article" []
      (.elem "a" [("href", "/papers/2401.001")] .nil
        (.elem "a" [("href", "https://github.com/org/repo")]
          (.elem "span" [] (.text "1.2k" .nil) .nil)
          (.elem "a" [("href", "https://arxiv.org/abs/2401.001")] .nil .nil)))
      .nil)

/-- Two model cards with the same link href. -/
def dupModelPage : Forest :=
  .elem "article" [("class", "overview-card-wrapper")]
    (.elem "a" [("href", "/x")] .nil .nil)
    (.elem "article" [("class", "overview-card-wrapper")]
      (.elem "a" [("href", "/x")] .nil .nil) .nil)

/-- A model card with no link, followed by one with a link. -/
def skipPage : Forest :=
  .elem "article" [("class", "overview-card-wrapper")] (.text "no link here" .nil)
    (.elem "article" [("class", "overview-card-wrapper")]
      (.elem "a" [("href", "/m")] .nil .nil) .nil)

/-- A model card whose task-marker svg is the last node of the document, with
no text node anywhere after it. -/
def crashPage : Forest :=
  .elem "article" [("class", "overview-card-wrapper")]
    (.elem "a" [("href", "/m")] .nil
      (.elem "svg" [("class", "mr-1.5")] .nil .nil))
    .nil

/-- A model card whose downloads label is negative. -/
def negDownloadsPage : Forest :=
  .elem "article" [("class", "overview-card-wrapper")]
    (.elem "a" [("href", "/m")] .nil
      (.elem "svg" [("class", "w-3 text-gray-400 mr-0.5")] .nil
        (.text "-5" .nil)))
    .nil

/-- One paper fragment whose upvote label is `5`. -/
def upvotesOnlyPage : Forest :=
  .elem "article" []
    (.elem "a" [("href", "/papers/p1")] .nil
      (.elem "div" [("class", "font-semibold text-orange-500")] (.text "5" .nil) .nil))
    .nil

/-- The same fragment followed by one whose upvote label does not parse. -/
def clobberPage : Forest :=
  .elem "article" []
    (.elem "a" [("href", "/papers/p1")] .nil
      (.elem "div" [("class", "font-semibold text-orange-500")] (.text "5" .nil) .nil))
    (.elem "article" []
      (.elem "a" [("href", "/papers/p1")] .nil
        (.elem "div" [("class", "font-semibold text-orange-500")] (.text "abc" .nil) .nil))
      .nil)

/-- A model card whose `time` tag carries the given `datetime` attribute. -/
def timePage (d : String) : Forest :=
  .elem "article" [("class", "overview-card-wrapper")]
    (.elem "a" [("href", "/m")] .nil
      (.elem "time" [("datetime", d)] .nil .nil))
    .nil

/-- A paper fragment whose span holds the given published label. -/
def pubPage (t : String) : Forest :=
  .elem "article" []
    (.elem "a" [("href", "/papers/p1")] .nil
      (.elem "span" [] (.text t .nil) .nil))
    .nil

/-- A paper detail page with a heading and a paragraph. -/
def detailPage : Forest :=
  .elem "h1" [] (.text " Title " .nil) (.elem "p" [] (.text " Abs " .nil) .nil)

/-- A network serving the example trending page and the detail page. -/
def fetchW : String → Except FetchErr Forest :=
  fun u => if u = trendingUrl then .ok exPaperPage else .ok detailPage
/-- Keys of the papers dict agree with the stored `paper_url` field. -/
def KeysMatch (d : PapersDict) : Prop := ∀ pr ∈ d, pr.1 = pr.2.paper_url

/-- The `doubleLimit` literal is the power it abbreviates. -/
lemma doubleLimit_eq : doubleLimit = 2 ^ 1024 := by norm_num [doubleLimit]

/-! Sanity checks of the extractors on fully concrete pages. -/

example :
    parse_models exModelArticle =
      .ok [⟨"google/gemma", "https://huggingface.co/google/gemma", some "Text Generation",
            some "22B", some "2024-05-01", some 100000, some 665⟩] := by decide

example :
    parse_models (articleNoH4 "/user/model") =
      .ok [⟨"user/model", "https://huggingface.co/user/model", none, none, none, none, none⟩] := by
  decide

example : parse_models (timePage "2024-05-01") =
    .ok [⟨"m", "https://huggingface.co/m", none, none, some "2024-05-01", none, none⟩] := by decide
example : parse_models (timePage "garbage") = .error .valueError := by decide
example : parse_trending_cards (pubPage "Published on Jan 5, 2024") =
    [("https://huggingface.co/papers/p1",
      ⟨"https://huggingface.co/papers/p1", none, none, none, some "2024-01-05", none⟩)] := by decide
example : parse_trending_cards (pubPage "Published on tomorrow") =
    [("https://huggingface.co/papers/p1",
      ⟨"https://huggingface.co/papers/p1", none, none, none, some "tomorrow", none⟩)] := by decide

example :
    parse_trending_cards exPaperPage =
      [("https://huggingface.co/papers/2401.001",
        ⟨"https://huggingface.co/papers/2401.001", some "https://github.com/org/repo",
         some "https://arxiv.org/abs/2401.001", some 5, some "2024-01-05", some 1200⟩)] := by
  decide

example :
    parse_paper_details
      (.elem "h1" [] (.text " Title " .nil) (.elem "p" [] (.text " Abs " .nil) .nil)) =
      ("Title", "Abs") := by decide

example : parse_paper_details (.elem "div" [] .nil .nil) = ("N/A", "N/A") := by decide

example : parse_number "1.2k" = .ok (some 1200) := by decide
example : parse_number "3M" = .ok (some 3000000) := by decide
example : parse_number "" = .ok none := by decide
example : parse_number "12,345" = .ok (some 12345) := by decide
example : parse_number "abc" = .ok none := by decide
example : parse_number "infk" = .error .overflowError := by decide
example : parse_number "1,2k" = .ok none := by decide
example : parse_number_papers "1,2k" = some 12000 := by decide
example : parse_number_papers "-5" = some (-5) := by decide
example : parse_number_papers "infk" = none := by decide

/-! Helper lemmas about the exception behaviour of the normalizer pieces. -/

lemma exbind_ok {ε α β : Type} (a : α) (g : α → Except ε β) :
    ((Except.ok a : Except ε α) >>= g) = g a := rfl

lemma exbind_err {ε α β : Type} (e : ε) (g : α → Except ε β) :
    ((Except.error e : Except ε α) >>= g) = .error e := rfl

lemma pyFloatPos_err {l : List Char} {e : PyErr} (h : pyFloatPos l = .error e) :
    e = .valueError := by
  simp only [pyFloatPos] at h
  split at h
  · exact Except.noConfusion h
  · split at h
    · exact Except.noConfusion h
    · split at h
      · exact Except.noConfusion h
      · exact (Except.error.inj h).symm

lemma pyFloatParse_err {l : List Char} {e : PyErr} (h : pyFloatParse l = .error e) :
    e = .valueError := by
  unfold pyFloatParse at h
  split at h
  · split at h
    · exact Except.noConfusion h
    · split at h
      · exact Except.noConfusion h
      · split at h
        · exact Except.noConfusion h
        · exact (Except.error.inj h).symm
  · exact pyFloatPos_err h
  · exact pyFloatPos_err h

lemma pyIntParse_err {l : List Char} {e : PyErr} (h : pyIntParse l = .error e) :
    e = .valueError := by
  unfold pyIntParse at h
  split at h <;> split at h <;>
    first
    | exact Except.noConfusion h
    | exact (Except.error.inj h).symm

lemma pyIntOfFloat_err {f : PyFloat} {e : PyErr} (h : pyIntOfFloat f = .error e) :
    e = .valueError ∨ e = .overflowError := by
  cases f <;> simp [pyIntOfFloat] at h <;> simp [h]

lemma parseNumberBodyModels_err {t : List Char} {e : PyErr}
    (h : parseNumberBodyModels t = .error e) : e = .valueError ∨ e = .overflowError := by
  unfold parseNumberBodyModels at h
  split at h
  · cases hf : pyFloatParse t.dropLast with
    | ok f =>
      rw [hf, exbind_ok] at h
      exact pyIntOfFloat_err h
    | error e2 =>
      rw [hf, exbind_err] at h
      exact Or.inl ((Except.error.inj h).symm.trans (pyFloatParse_err hf))
  · split at h
    · cases hf : pyFloatParse t.dropLast with
      | ok f =>
        rw [hf, exbind_ok] at h
        exact pyIntOfFloat_err h
      | error e2 =>
        rw [hf, exbind_err] at h
        exact Or.inl ((Except.error.inj h).symm.trans (pyFloatParse_err hf))
    · exact Or.inl (pyIntParse_err h)

/-- C1 counterexample: a completed response with status 404 is returned as page
content by `fetch_url`, not turned into a failure. -/
theorem fetch_url_returns_body_on_404 :
    fetch_url (.response 404 "page body") = .ok "page body" ∧ ¬(200 ≤ 404 ∧ 404 < 300) := by
  exact ⟨rfl, by omega⟩

/-- C1 (amended): `fetch_url` returns the response body as text for every
completed response, whatever its status code (the source never inspects the
status), and fails only on a transport-level error. -/
theorem fetch_url_ignores_status :
    (∀ st b, fetch_url (.response st b) = .ok b) ∧ fetch_url .netFail = .error .netError :=
  ⟨fun _ _ => rfl, rfl⟩

/-- C6 counterexample: the models `parse_number` is not total — on `"infk"` the
`int(float("inf") * 1000)` step raises `OverflowError`, which `except
ValueError` does not catch, so the exception escapes to the caller. -/
theorem parse_number_models_raises_on_infk :
    parse_number "infk" = .error .overflowError := by decide

/-- C6 (amended): the papers `parse_number` is total (its bare `except:`
catches everything, as its `Option Int` result type shows), and every parse
failure inside the models `parse_number` that raises `ValueError` yields null;
but the models version lets `OverflowError` escape, and that is the only
exception that can escape it. -/
theorem parse_number_models_error_is_overflow :
    ∀ (s : String) (e : PyErr), parse_number s = .error e → e = .overflowError := by
  intro s e h
  unfold parse_number at h
  split at h
  · exact absurd h (by simp)
  · cases hb : parseNumberBodyModels (pyStripL (s.toList.map pyLowerChar)) with
    | ok v => rw [hb] at h; exact absurd h (by simp)
    | error e2 =>
      rw [hb] at h
      cases e2 with
      | valueError => exact absurd h (by simp)
      | overflowError => exact (Except.error.inj h).symm
      | attributeError =>
        rcases parseNumberBodyModels_err hb with h2 | h2 <;> exact absurd h2 (by simp)

/-- C6 witness: the amended theorem applied at the concrete escaping input. -/
theorem parse_number_models_error_is_overflow_witness :
    PyErr.overflowError = PyErr.overflowError :=
  parse_number_models_error_is_overflow "infk" .overflowError (by decide)

/-- C7 counterexample: the two normalizers are not extensionally equal — on
`"1,2k"` the models version fails to parse (`float("1,2")` raises, caught to
null) while the papers version removes the comma first and returns 12000. -/
theorem parse_number_disagree_on_comma_suffix :
    parse_number "1,2k" = .ok none ∧ parse_number_papers "1,2k" = some 12000 ∧
      (none : Option Int) ≠ some 12000 := by decide

/-- C2 counterexample: the models extractor does not deduplicate by URL — two
cards with the same link produce two identical records, so the url column of
the emitted rows has a duplicate. -/
theorem parse_models_emits_duplicate_urls :
    parse_models dupModelPage =
      .ok [⟨"x", "https://huggingface.co/x", none, none, none, none, none⟩,
           ⟨"x", "https://huggingface.co/x", none, none, none, none, none⟩] ∧
    ¬ (List.map ModelRec.url
        [⟨"x", "https://huggingface.co/x", none, none, none, none, none⟩,
         ⟨"x", "https://huggingface.co/x", none, none, none, none, none⟩]).Nodup := by
  constructor
  · decide
  · decide

/-- C5 counterexample: two failures of the claim. A card whose link sub-element
is missing is skipped entirely by `continue` — no record with a null identifier
is emitted for it — while extraction of the following card proceeds, so the
two-card page yields exactly one record. And a card whose task-marker svg has
no following text node aborts the card and the whole extraction:
`task_svg.find_next(string=True)` is `None`, and `None.strip()` raises an
uncaught `AttributeError`. -/
theorem parse_models_skips_card_without_link :
    parse_models skipPage =
      .ok [⟨"m", "https://huggingface.co/m", none, none, none, none, none⟩] ∧
    parse_models crashPage = .error .attributeError := by
  constructor
  · decide
  · decide

/-- C8 counterexample: numeric fields can be negative — a downloads label of
`"-5"` is parsed to the negative integer -5 and emitted in the record. -/
theorem parse_models_negative_downloads :
    parse_models negDownloadsPage =
      .ok [⟨"m", "https://huggingface.co/m", none, none, none, some (-5), none⟩] ∧
    (-5 : Int) < 0 := by
  constructor
  · decide
  · decide

/-- C3 counterexample: a later fragment whose upvote marker is present but
whose label parses to null overwrites the previously populated value — the
first fragment alone yields upvotes 5, but followed by an `"abc"` fragment the
merged record has upvotes null. -/
theorem later_null_fragment_clobbers_upvotes :
    parse_trending_cards upvotesOnlyPage =
      [("https://huggingface.co/papers/p1",
        ⟨"https://huggingface.co/papers/p1", none, none, some 5, none, none⟩)] ∧
    parse_trending_cards clobberPage =
      [("https://huggingface.co/papers/p1",
        ⟨"https://huggingface.co/papers/p1", none, none, none, none, none⟩)] := by
  constructor
  · decide
  · decide

/-- C4 counterexample: a card lacking an `h4` label takes the whole href with
slashes stripped as `model_id` — `/user/model` yields `"user/model"`, not the
last path segment `"model"`. -/
theorem model_id_fallback_is_not_last_segment :
    parse_models (articleNoH4 "/user/model") =
      .ok [⟨"user/model", "https://huggingface.co/user/model", none, none, none, none, none⟩] ∧
    "user/model" ≠ "model" := by
  constructor
  · decide
  · decide

/-! Inversion of `recordOfArticle` and per-field degradation lemmas. -/

lemma taskField_of_none {soup : Forest} {p : List Nat} {e : Entry}
    (h : findDescIn p e isSvgTask = none) : taskField soup p e = .ok none := by
  unfold taskField; rw [h]

lemma updatedField_of_none {p : List Nat} {e : Entry}
    (h : findDescIn p e isTimeTag = none) : updatedField p e = .ok none := by
  unfold updatedField; rw [h]

lemma downloadsField_of_none {soup : Forest} {p : List Nat} {e : Entry}
    (h : findDescIn p e isSvgDownloads = none) : downloadsField soup p e = .ok none := by
  unfold downloadsField; rw [h]

lemma likesField_of_none {soup : Forest} {p : List Nat} {e : Entry}
    (h : findDescIn p e isSvgLikes = none) : likesField soup p e = .ok none := by
  unfold likesField; rw [h]

lemma paramsField_of_none {p : List Nat} {e : Entry}
    (h : findDescIn p e isParamSpan = none) : paramsField p e = none := by
  unfold paramsField; rw [h]

lemma recordOfArticle_ok_some {soup : Forest} {p : List Nat} {e : Entry}
    {ap : List Nat} {an : Entry} {r : ModelRec}
    (h1 : findDescIn p e isAhref = some (ap, an))
    (h : recordOfArticle soup p e = .ok (some r)) :
    ∃ task updated downloads likes,
      taskField soup p e = .ok task ∧ updatedField p e = .ok updated ∧
      downloadsField soup p e = .ok downloads ∧ likesField soup p e = .ok likes ∧
      r = { model_id :=
              match findDescIn ap an isH4 with
              | some (_, h4) => pyStrip (entryText h4)
              | none => stripSlashes ((entryAttr an "href").getD "")
            url := "https://huggingface.co" ++ (entryAttr an "href").getD ""
            task := task
            parameters := paramsField p e
            updated := updated
            downloads := downloads
            likes := likes } := by
  simp only [recordOfArticle, h1] at h
  cases ht : taskField soup p e with
  | error e1 => rw [ht, exbind_err] at h; exact Except.noConfusion h
  | ok task =>
    rw [ht, exbind_ok] at h
    cases hu : updatedField p e with
    | error e1 => rw [hu, exbind_err] at h; exact Except.noConfusion h
    | ok updated =>
      rw [hu, exbind_ok] at h
      cases hd : downloadsField soup p e with
      | error e1 => rw [hd, exbind_err] at h; exact Except.noConfusion h
      | ok downloads =>
        rw [hd, exbind_ok] at h
        cases hl : likesField soup p e with
        | error e1 => rw [hl, exbind_err] at h; exact Except.noConfusion h
        | ok likes =>
          rw [hl, exbind_ok] at h
          exact ⟨task, updated, downloads, likes, rfl, rfl, rfl, rfl,
            (Option.some.inj (Except.ok.inj h)).symm⟩

/-- C4 (amended): for every card whose link lacks an `h4` label, the emitted
record's `model_id` is the card's whole href with leading and trailing slashes
stripped (`strip("/")`), which is the last path segment only for single-segment
links. -/
theorem model_id_fallback_full_href :
    ∀ (soup : Forest) (p : List Nat) (e : Entry) (ap : List Nat) (an : Entry) (r : ModelRec),
      findDescIn p e isAhref = some (ap, an) →
      findDescIn ap an isH4 = none →
      recordOfArticle soup p e = .ok (some r) →
      r.model_id = stripSlashes ((entryAttr an "href").getD "") := by
  intro soup p e ap an r h1 h2 h3
  obtain ⟨task, updated, downloads, likes, _, _, _, _, hr⟩ := recordOfArticle_ok_some h1 h3
  rw [hr]
  simp only [h2]

/-- C4 amended witness: the fallback theorem at the `/user/model` card. -/
theorem model_id_fallback_full_href_witness :
    (⟨"user/model", "https://huggingface.co/user/model",
       none, none, none, none, none⟩ : ModelRec).model_id
      = stripSlashes ((entryAttr (.elem "a" [("href", "/user/model")] .nil) "href").getD "") :=
  model_id_fallback_full_href (articleNoH4 "/user/model") [0]
    (.elem "article" [("class", "overview-card-wrapper")]
      (.elem "a" [("href", "/user/model")] .nil .nil))
    [0, 0] (.elem "a" [("href", "/user/model")] .nil) _ rfl rfl rfl

/-- C5 (amended): each field lookup other than the card's link element
tolerates a missing marker sub-element — the field is null (or the `"N/A"`
placeholder for the detail page's title/abstract), the lookup itself does not
abort, and an emitted record has null there — with two exceptions. A card whose
link sub-element is missing is skipped entirely by `continue` (no record with a
null identifier is emitted), in both card extractors, while extraction of the
other cards continues. And the models task lookup is not failure-tolerant past
its marker: when the task svg is present but no text node follows it in the
document, `find_next(string=True)` returns `None` and `None.strip()` raises an
uncaught `AttributeError` that aborts the card and the entire extraction. -/
theorem field_lookups_degrade_to_null :
    (∀ (soup : Forest) (p : List Nat) (e : Entry),
      findDescIn p e isAhref = none → recordOfArticle soup p e = .ok none) ∧
    (∀ (d : PapersDict) (p : List Nat) (e : Entry),
      findDescIn p e isPapersLink = none → processArticle d p e = d) ∧
    (∀ (soup : Forest) (p : List Nat) (e : Entry),
      (findDescIn p e isSvgTask = none → taskField soup p e = .ok none) ∧
      (findDescIn p e isParamSpan = none → paramsField p e = none) ∧
      (findDescIn p e isTimeTag = none → updatedField p e = .ok none) ∧
      (findDescIn p e isSvgDownloads = none → downloadsField soup p e = .ok none) ∧
      (findDescIn p e isSvgLikes = none → likesField soup p e = .ok none)) ∧
    (∀ (soup : Forest) (p : List Nat) (e : Entry) (r : ModelRec),
      recordOfArticle soup p e = .ok (some r) →
      (findDescIn p e isSvgTask = none → r.task = none) ∧
      (findDescIn p e isParamSpan = none → r.parameters = none) ∧
      (findDescIn p e isTimeTag = none → r.updated = none) ∧
      (findDescIn p e isSvgDownloads = none → r.downloads = none) ∧
      (findDescIn p e isSvgLikes = none → r.likes = none)) ∧
    (∀ (soup : Forest) (p : List Nat) (e : Entry) (sp : List Nat) (sn : Entry),
      findDescIn p e isSvgTask = some (sp, sn) → findNextString soup sp = none →
      taskField soup p e = .error .attributeError) ∧
    parse_models crashPage = .error .attributeError ∧
    (∀ soup : Forest,
      findInDoc soup (fun e => tagOf e == "h1") = none → (parse_paper_details soup).1 = "N/A") ∧
    (∀ soup : Forest,
      findInDoc soup (fun e => tagOf e == "p") = none → (parse_paper_details soup).2 = "N/A") := by
  refine ⟨?_, ?_, ?_, ?_, ?_, ?_, ?_, ?_⟩
  · intro soup p e h
    unfold recordOfArticle
    rw [h]
  · intro d p e h
    unfold processArticle
    rw [h]
  · intro soup p e
    exact ⟨fun h => taskField_of_none h, fun h => paramsField_of_none h,
      fun h => updatedField_of_none h, fun h => downloadsField_of_none h,
      fun h => likesField_of_none h⟩
  · intro soup p e r h
    cases hfind : findDescIn p e isAhref with
    | none =>
      unfold recordOfArticle at h
      rw [hfind] at h
      exact absurd (Except.ok.inj h) (by simp)
    | some pan =>
      obtain ⟨ap, an⟩ := pan
      obtain ⟨task, updated, downloads, likes, ht, hu, hd, hl, hr⟩ :=
        recordOfArticle_ok_some hfind h
      refine ⟨?_, ?_, ?_, ?_, ?_⟩
      · intro hs
        have h0 : taskField soup p e = Except.ok none := taskField_of_none hs
        have h2 := h0.symm.trans ht
        rw [hr]
        exact (Except.ok.inj h2).symm
      · intro hs
        rw [hr]
        exact paramsField_of_none hs
      · intro hs
        have h2 := (updatedField_of_none hs).symm.trans hu
        rw [hr]
        exact (Except.ok.inj h2).symm
      · intro hs
        have h0 : downloadsField soup p e = Except.ok none := downloadsField_of_none hs
        have h2 := h0.symm.trans hd
        rw [hr]
        exact (Except.ok.inj h2).symm
      · intro hs
        have h0 : likesField soup p e = Except.ok none := likesField_of_none hs
        have h2 := h0.symm.trans hl
        rw [hr]
        exact (Except.ok.inj h2).symm
  · intro soup p e sp sn h1 h2
    simp only [taskField, h1, h2]
  · decide
  · intro soup h
    simp only [parse_paper_details, h]
  · intro soup h
    simp only [parse_paper_details, h]

/-- C5 amended witness: the skip clause at a concrete linkless card. -/
theorem field_lookups_degrade_to_null_witness :
    recordOfArticle Forest.nil [] (Entry.text "x") = .ok none :=
  field_lookups_degrade_to_null.1 Forest.nil [] (Entry.text "x") rfl

/-! Invariants of the `papers` dictionary: keys are pairwise distinct (inserted
only when absent) and each key equals the stored record's `paper_url`. -/

lemma updCard_map_fst (d : PapersDict) (k : String) (f : PaperCard → PaperCard) :
    (updCard d k f).map Prod.fst = d.map Prod.fst := by
  unfold updCard
  rw [List.map_map]
  apply List.map_congr_left
  intro a _
  show (if a.1 == k then (a.1, f a.2) else a).1 = a.1
  split <;> rfl

lemma stepUpvotes_map_fst (p : List Nat) (e : Entry) (url : String) (d : PapersDict) :
    (stepUpvotes p e url d).map Prod.fst = d.map Prod.fst := by
  simp only [stepUpvotes]
  split
  · rfl
  · exact updCard_map_fst ..

lemma stepPublished_map_fst (p : List Nat) (e : Entry) (url : String) (d : PapersDict) :
    (stepPublished p e url d).map Prod.fst = d.map Prod.fst := by
  simp only [stepPublished]
  split
  · rfl
  · split
    · exact updCard_map_fst ..
    · exact updCard_map_fst ..

lemma stepGithub_map_fst (p : List Nat) (e : Entry) (url : String) (d : PapersDict) :
    (stepGithub p e url d).map Prod.fst = d.map Prod.fst := by
  simp only [stepGithub]
  split
  · rfl
  · split
    · exact updCard_map_fst ..
    · rw [updCard_map_fst, updCard_map_fst]

lemma stepArxiv_map_fst (p : List Nat) (e : Entry) (url : String) (d : PapersDict) :
    (stepArxiv p e url d).map Prod.fst = d.map Prod.fst := by
  simp only [stepArxiv]
  split
  · rfl
  · exact updCard_map_fst ..

lemma hasKey_false_not_mem {d : PapersDict} {url : String} (h : hasKey d url = false) :
    url ∉ d.map Prod.fst := by
  unfold hasKey at h
  intro hmem
  obtain ⟨q, hq, hq1⟩ := List.mem_map.mp hmem
  cases hf : d.find? (fun e => e.1 == url) with
  | some q2 => rw [hf] at h; exact Bool.noConfusion h
  | none =>
    have := List.find?_eq_none.mp hf q hq
    rw [hq1] at this
    simp at this

lemma ensureKey_nodup {d : PapersDict} {url : String} (h : (d.map Prod.fst).Nodup) :
    ((ensureKey d url).map Prod.fst).Nodup := by
  unfold ensureKey
  split
  · exact h
  · rename_i hk
    rw [List.map_append]
    rw [List.nodup_append]
    refine ⟨h, List.nodup_singleton url, ?_⟩
    intro a ha hb
    have hb2 : a = url := by simpa using hb
    subst hb2
    exact hasKey_false_not_mem (Bool.eq_false_iff.mpr hk) ha

lemma processArticle_nodup {d : PapersDict} (p : List Nat) (e : Entry)
    (h : (d.map Prod.fst).Nodup) : ((processArticle d p e).map Prod.fst).Nodup := by
  simp only [processArticle]
  split
  · exact h
  · rw [stepArxiv_map_fst, stepGithub_map_fst, stepPublished_map_fst, stepUpvotes_map_fst]
    exact ensureKey_nodup h

lemma foldl_processArticle_nodup (l : List (List Nat × Entry)) :
    ∀ d : PapersDict, (d.map Prod.fst).Nodup →
      ((l.foldl (fun d pe => processArticle d pe.1 pe.2) d).map Prod.fst).Nodup := by
  induction l with
  | nil => intro d h; exact h
  | cons a l ih => intro d h; exact ih _ (processArticle_nodup _ _ h)

lemma trending_keys_nodup (soup : Forest) :
    ((parse_trending_cards soup).map Prod.fst).Nodup := by
  unfold parse_trending_cards
  exact foldl_processArticle_nodup _ [] (by simp)


lemma updCard_keysMatch {d : PapersDict} {k : String} {f : PaperCard → PaperCard}
    (hf : ∀ c, (f c).paper_url = c.paper_url) (h : KeysMatch d) : KeysMatch (updCard d k f) := by
  intro pr hpr
  unfold updCard at hpr
  obtain ⟨q, hq, hgq⟩ := List.mem_map.mp hpr
  by_cases hqk : (q.1 == k) = true
  · rw [if_pos hqk] at hgq
    rw [← hgq]
    exact (h q hq).trans (hf q.2).symm
  · rw [if_neg hqk] at hgq
    rw [← hgq]
    exact h q hq

lemma stepUpvotes_keysMatch {d : PapersDict} (p : List Nat) (e : Entry) (url : String)
    (h : KeysMatch d) : KeysMatch (stepUpvotes p e url d) := by
  simp only [stepUpvotes]
  split
  · exact h
  · exact updCard_keysMatch (fun c => rfl) h

lemma stepPublished_keysMatch {d : PapersDict} (p : List Nat) (e : Entry) (url : String)
    (h : KeysMatch d) : KeysMatch (stepPublished p e url d) := by
  simp only [stepPublished]
  split
  · exact h
  · split
    · exact updCard_keysMatch (fun c => rfl) h
    · exact updCard_keysMatch (fun c => rfl) h

lemma stepGithub_keysMatch {d : PapersDict} (p : List Nat) (e : Entry) (url : String)
    (h : KeysMatch d) : KeysMatch (stepGithub p e url d) := by
  simp only [stepGithub]
  split
  · exact h
  · split
    · exact updCard_keysMatch (fun c => rfl) h
    · exact updCard_keysMatch (fun c => rfl) (updCard_keysMatch (fun c => rfl) h)

lemma stepArxiv_keysMatch {d : PapersDict} (p : List Nat) (e : Entry) (url : String)
    (h : KeysMatch d) : KeysMatch (stepArxiv p e url d) := by
  simp only [stepArxiv]
  split
  · exact h
  · exact updCard_keysMatch (fun c => rfl) h

lemma ensureKey_keysMatch {d : PapersDict} (url : String) (h : KeysMatch d) :
    KeysMatch (ensureKey d url) := by
  unfold ensureKey
  split
  · exact h
  · intro pr hpr
    rcases List.mem_append.mp hpr with hl | hr
    · exact h pr hl
    · have hpr2 : pr = (url, initCard url) := by simpa using hr
      rw [hpr2]
      rfl

lemma processArticle_keysMatch {d : PapersDict} (p : List Nat) (e : Entry)
    (h : KeysMatch d) : KeysMatch (processArticle d p e) := by
  simp only [processArticle]
  split
  · exact h
  · exact stepArxiv_keysMatch _ _ _ (stepGithub_keysMatch _ _ _
      (stepPublished_keysMatch _ _ _ (stepUpvotes_keysMatch _ _ _
        (ensureKey_keysMatch _ h))))

lemma foldl_processArticle_keysMatch (l : List (List Nat × Entry)) :
    ∀ d : PapersDict, KeysMatch d →
      KeysMatch (l.foldl (fun d pe => processArticle d pe.1 pe.2) d) := by
  induction l with
  | nil => intro d h; exact h
  | cons a l ih => intro d h; exact ih _ (processArticle_keysMatch _ _ h)

lemma trending_keysMatch (soup : Forest) : KeysMatch (parse_trending_cards soup) := by
  unfold parse_trending_cards
  exact foldl_processArticle_keysMatch _ [] (by intro pr hpr; exact absurd hpr (by simp))

/-- C2 (amended): the papers extractor deduplicates by URL — the url key is
unique per record of `parse_trending_cards` — while the models extractor emits
one record per card with no URL deduplication, so duplicate urls can appear in
its output. -/
theorem parse_trending_cards_urls_nodup (soup : Forest) :
    ((parse_trending_cards soup).map Prod.fst).Nodup :=
  trending_keys_nodup soup

lemma gatherFetch_length {fetch : String → Except FetchErr Forest} :
    ∀ {us : List String} {ps : List Forest},
      gatherFetch fetch us = .ok ps → ps.length = us.length := by
  intro us
  induction us with
  | nil =>
    intro ps h
    simp only [gatherFetch] at h
    rw [← Except.ok.inj h]
    rfl
  | cons u us ih =>
    intro ps h
    simp only [gatherFetch] at h
    cases hf : fetch u with
    | error e => rw [hf, exbind_err] at h; exact Except.noConfusion h
    | ok p =>
      rw [hf, exbind_ok] at h
      cases hg : gatherFetch fetch us with
      | error e => rw [hg, exbind_err] at h; exact Except.noConfusion h
      | ok ps2 =>
        rw [hg, exbind_ok] at h
        rw [← Except.ok.inj h]
        simp [ih hg]

/-- C9: on a successful run, the detail-fetch task list contains exactly the
paper URLs discovered by the card extractor, one per dictionary entry in
insertion order; those URLs are pairwise distinct (K distinct URLs, K fetches);
and the K fetched pages are zipped back one-to-one, so the output has exactly K
rows whose `url column equals the discovery-ordered URL list. -/
theorem runPapers_batch_count :
    ∀ (fetch : String → Except FetchErr Forest) (page : Forest)
      (urls : List String) (rows : List PaperRow),
      fetch trendingUrl = .ok page →
      runPapers fetch = .ok (urls, rows) →
      urls = (parse_trending_cards page).map (fun pr => pr.2.paper_url) ∧
      urls.Nodup ∧
      rows.length = (parse_trending_cards page).length ∧
      rows.map PaperRow.url = urls := by
  intro fetch page urls rows hp hr
  simp only [runPapers] at hr
  rw [hp, exbind_ok] at hr
  cases hg : gatherFetch fetch
      (((parse_trending_cards page).map (fun e => e.2)).map (fun c => c.paper_url)) with
  | error e => rw [hg, exbind_err] at hr; exact Except.noConfusion hr
  | ok pages =>
    rw [hg, exbind_ok] at hr
    have hpair := Except.ok.inj hr
    have hurls : (((parse_trending_cards page).map (fun e => e.2)).map
        (fun c => c.paper_url)) = urls := congrArg Prod.fst hpair
    have hrows : ((((parse_trending_cards page).map (fun e => e.2)).zip pages).map (fun cp =>
        { title := (parse_paper_details cp.2).1, abstract := (parse_paper_details cp.2).2,
          url := cp.1.paper_url, github := cp.1.github, arxiv := cp.1.arxiv,
          upvotes := cp.1.upvotes, published := cp.1.published,
          github_stars := cp.1.github_stars : PaperRow })) = rows := congrArg Prod.snd hpair
    have hlen : pages.length = (parse_trending_cards page).length := by
      rw [gatherFetch_length hg]
      simp
    have hurls2 : urls = (parse_trending_cards page).map (fun pr => pr.2.paper_url) := by
      rw [← hurls, List.map_map]
      rfl
    refine ⟨hurls2, ?_, ?_, ?_⟩
    · rw [hurls2]
      rw [List.map_congr_left (fun pr hpr => (trending_keysMatch page pr hpr).symm)]
      exact trending_keys_nodup page
    · rw [← hrows]
      rw [List.length_map, List.length_zip, hlen]
      simp
    · rw [← hrows, ← hurls]
      have hle : ((parse_trending_cards page).map (fun e => e.2)).length ≤ pages.length := by
        rw [hlen]
        simp
      conv_lhs => rw [List.map_map]
      have hcomp : (((parse_trending_cards page).map (fun e => e.2)).zip pages).map
            (PaperRow.url ∘ (fun cp =>
              { title := (parse_paper_details cp.2).1, abstract := (parse_paper_details cp.2).2,
                url := cp.1.paper_url, github := cp.1.github, arxiv := cp.1.arxiv,
                upvotes := cp.1.upvotes, published := cp.1.published,
                github_stars := cp.1.github_stars : PaperRow }))
          = (((parse_trending_cards page).map (fun e => e.2)).zip pages).map
              ((fun c => c.paper_url) ∘ Prod.fst) := rfl
      rw [hcomp, ← List.map_map, List.map_fst_zip _ _ hle]

/-- C9 witness: the run theorem at the concrete network `fetchW`. -/
theorem runPapers_batch_count_witness :
    ["https://huggingface.co/papers/2401.001"] =
      (parse_trending_cards exPaperPage).map (fun pr => pr.2.paper_url) ∧
    (["https://huggingface.co/papers/2401.001"] : List String).Nodup ∧
    ([⟨"Title", "Abs", "https://huggingface.co/papers/2401.001",
       some "https://github.com/org/repo", some "https://arxiv.org/abs/2401.001",
       some 5, some "2024-01-05", some 1200⟩] : List PaperRow).length =
      (parse_trending_cards exPaperPage).length ∧
    ([⟨"Title", "Abs", "https://huggingface.co/papers/2401.001",
       some "https://github.com/org/repo", some "https://arxiv.org/abs/2401.001",
       some 5, some "2024-01-05", some 1200⟩] : List PaperRow).map PaperRow.url =
      ["https://huggingface.co/papers/2401.001"] :=
  runPapers_batch_count fetchW exPaperPage
    ["https://huggingface.co/papers/2401.001"]
    [⟨"Title", "Abs", "https://huggingface.co/papers/2401.001",
      some "https://github.com/org/repo", some "https://arxiv.org/abs/2401.001",
      some 5, some "2024-01-05", some 1200⟩]
    (by decide) (by decide)

/-- C3 (amended): fragments for the same URL merge into exactly one entry and
the merge is additive per marker: a fragment lacking a field's marker element
leaves that field unchanged, while a fragment containing the marker overwrites
the field with the freshly parsed value — even when that value is null, so the
last marker occurrence wins rather than the last non-null value; in the
two-fragment upvotes/github-stars example both fields end up populated. -/
theorem papers_merge_additive_by_marker :
    parse_trending_cards exPaperPage =
      [("https://huggingface.co/papers/2401.001",
        ⟨"https://huggingface.co/papers/2401.001", some "https://github.com/org/repo",
         some "https://arxiv.org/abs/2401.001", some 5, some "2024-01-05", some 1200⟩)] ∧
    (∀ (p : List Nat) (e : Entry) (url : String) (d : PapersDict),
      findDescIn p e isUpvoteTag = none → stepUpvotes p e url d = d) ∧
    (∀ (p : List Nat) (e : Entry) (url : String) (d : PapersDict),
      findDescIn p e isPubSpan = none → stepPublished p e url d = d) ∧
    (∀ (p : List Nat) (e : Entry) (url : String) (d : PapersDict),
      findDescIn p e isGithubLink = none → stepGithub p e url d = d) ∧
    (∀ (p : List Nat) (e : Entry) (url : String) (d : PapersDict),
      findDescIn p e isArxivLink = none → stepArxiv p e url d = d) ∧
    (∀ (p : List Nat) (e : Entry) (url : String) (d : PapersDict) (sp : List Nat) (un : Entry),
      findDescIn p e isUpvoteTag = some (sp, un) →
      stepUpvotes p e url d =
        updCard d url (fun c => { c with upvotes := parse_number_papers (entryText un) })) := by
  refine ⟨by decide, ?_, ?_, ?_, ?_, ?_⟩
  · intro p e url d h
    simp only [stepUpvotes, h]
  · intro p e url d h
    simp only [stepPublished, h]
  · intro p e url d h
    simp only [stepGithub, h]
  · intro p e url d h
    simp only [stepArxiv, h]
  · intro p e url d sp un h
    simp only [stepUpvotes, h]

/-- C3 amended witness: the no-marker clause at a concrete empty fragment. -/
theorem papers_merge_additive_by_marker_witness :
    stepUpvotes [] (Entry.text "x") "u" [] = [] :=
  papers_merge_additive_by_marker.2.1 [] (Entry.text "x") "u" [] rfl

/-- C10: date-parse failures are asymmetric. In the models extractor a `time`
tag whose `datetime` attribute does not parse as ISO (after the `Z`
replacement) raises an uncaught `ValueError`, aborting the whole parse; in the
papers extractor a published label that fails `strptime("%b %d, %Y")` after the
`Published on ` prefix removal is kept verbatim (stripped, prefix removed) as
the published value. -/
theorem date_parse_asymmetry :
    (∀ d : String, pyFromIso (replaceAll d "Z" "+00:00") = none →
      parse_models (timePage d) = .error .valueError) ∧
    (∀ t : String, pubSearch t = true →
      strptimeBdY (replaceAll (pyStrip t) "Published on " "") = none →
      parse_trending_cards (pubPage t) =
        [("https://huggingface.co/papers/p1",
          ⟨"https://huggingface.co/papers/p1", none, none, none,
           some (replaceAll (pyStrip t) "Published on " ""), none⟩)]) := by
  constructor
  · intro d h
    have hupd2 : updatedField [0]
        (Entry.elem "article" [("class", "overview-card-wrapper")]
          (Forest.elem "a" [("href", "/m")] .nil
            (.elem "time" [("datetime", d)] .nil .nil))) = .error .valueError := by
      rw [show updatedField [0]
          (Entry.elem "article" [("class", "overview-card-wrapper")]
            (Forest.elem "a" [("href", "/m")] .nil
              (.elem "time" [("datetime", d)] .nil .nil))) =
          (match pyFromIso (replaceAll d "Z" "+00:00") with
           | none => Except.error PyErr.valueError
           | some ymd => Except.ok (some (fmtYmd ymd))) from rfl]
      rw [h]
    have hrec : recordOfArticle (timePage d) [0]
        (Entry.elem "article" [("class", "overview-card-wrapper")]
          (Forest.elem "a" [("href", "/m")] .nil
            (.elem "time" [("datetime", d)] .nil .nil))) = .error .valueError := by
      rw [show recordOfArticle (timePage d) [0]
          (Entry.elem "article" [("class", "overview-card-wrapper")]
            (Forest.elem "a" [("href", "/m")] .nil
              (.elem "time" [("datetime", d)] .nil .nil))) =
          (updatedField [0]
            (Entry.elem "article" [("class", "overview-card-wrapper")]
              (Forest.elem "a" [("href", "/m")] .nil
                (.elem "time" [("datetime", d)] .nil .nil))) >>= fun updated =>
           downloadsField (timePage d) [0]
            (Entry.elem "article" [("class", "overview-card-wrapper")]
              (Forest.elem "a" [("href", "/m")] .nil
                (.elem "time" [("datetime", d)] .nil .nil))) >>= fun downloads =>
           likesField (timePage d) [0]
            (Entry.elem "article" [("class", "overview-card-wrapper")]
              (Forest.elem "a" [("href", "/m")] .nil
                (.elem "time" [("datetime", d)] .nil .nil))) >>= fun likes =>
           Except.ok (some { model_id := "m", url := "https://huggingface.co/m",
                             task := none, parameters := none, updated := updated,
                             downloads := downloads, likes := likes })) from rfl]
      rw [hupd2, exbind_err]
    have hcards : modelCards (timePage d) =
        [([0], Entry.elem "article" [("class", "overview-card-wrapper")]
          (Forest.elem "a" [("href", "/m")] .nil
            (.elem "time" [("datetime", d)] .nil .nil)))] := rfl
    simp only [parse_models]
    rw [hcards]
    simp only [List.foldlM, hrec, exbind_err]
  · intro t h1 h2
    have hfind : findDescIn [0]
        (Entry.elem "article" []
          (Forest.elem "a" [("href", "/papers/p1")] .nil
            (.elem "span" [] (.text t .nil) .nil))) isPubSpan =
        some ([0, 1], Entry.elem "span" [] (Forest.text t Forest.nil)) := by
      have e1 : findDescIn [0]
          (Entry.elem "article" []
            (Forest.elem "a" [("href", "/papers/p1")] .nil
              (.elem "span" [] (.text t .nil) .nil))) isPubSpan =
          (cond (pubSearch t)
            [(([0, 1] : List Nat), Entry.elem "span" [] (Forest.text t Forest.nil))]
            []).head? := rfl
      rw [e1, h1]
      rfl
    have main : ∀ (url : String) (d : PapersDict),
        stepPublished [0]
          (Entry.elem "article" []
            (Forest.elem "a" [("href", "/papers/p1")] .nil
              (.elem "span" [] (.text t .nil) .nil))) url d =
        updCard d url
          (fun c => { c with published := some (replaceAll (pyStrip t) "Published on " "") }) := by
      intro url d
      have hs : strptimeBdY (replaceAll (pyStrip
          ((entryString (Entry.elem "span" [] (Forest.text t Forest.nil))).getD ""))
          "Published on " "") = none := h2
      simp only [stepPublished, hfind, hs]
      rfl
    rw [show parse_trending_cards (pubPage t) =
        stepArxiv [0]
          (Entry.elem "article" []
            (Forest.elem "a" [("href", "/papers/p1")] .nil
              (.elem "span" [] (.text t .nil) .nil)))
          "https://huggingface.co/papers/p1"
          (stepGithub [0]
            (Entry.elem "article" []
              (Forest.elem "a" [("href", "/papers/p1")] .nil
                (.elem "span" [] (.text t .nil) .nil)))
            "https://huggingface.co/papers/p1"
            (stepPublished [0]
              (Entry.elem "article" []
                (Forest.elem "a" [("href", "/papers/p1")] .nil
                  (.elem "span" [] (.text t .nil) .nil)))
              "https://huggingface.co/papers/p1"
              (stepUpvotes [0]
                (Entry.elem "article" []
                  (Forest.elem "a" [("href", "/papers/p1")] .nil
                    (.elem "span" [] (.text t .nil) .nil)))
                "https://huggingface.co/papers/p1"
                (ensureKey [] "https://huggingface.co/papers/p1")))) from rfl]
    rw [main]
    rfl

/-- C10 witness: the asymmetry theorem at the concrete malformed inputs
`datetime="garbage"` and label `"Published on tomorrow"`. -/
theorem date_parse_asymmetry_witness :
    parse_models (timePage "garbage") = .error .valueError ∧
    parse_trending_cards (pubPage "Published on tomorrow") =
      [("https://huggingface.co/papers/p1",
        ⟨"https://huggingface.co/papers/p1", none, none, none,
         some (replaceAll (pyStrip "Published on tomorrow") "Published on " ""), none⟩)] :=
  ⟨date_parse_asymmetry.1 "garbage" (by decide),
   date_parse_asymmetry.2 "Published on tomorrow" (by decide) (by decide)⟩

/-! Commutation of ASCII lower-casing with stripping, and comma bookkeeping. -/

lemma pyLowerChar_space (c : Char) : isPySpace (pyLowerChar c) = isPySpace c := by
  unfold pyLowerChar
  split <;> rfl

lemma pyLowerChar_comma {c : Char} (h : pyLowerChar c = ',') : c = ',' := by
  revert h
  unfold pyLowerChar
  split <;> intro h <;> first
    | exact absurd h (by decide)
    | exact h

lemma pyLowerChar_minus {c : Char} (h : pyLowerChar c = '-') : c = '-' := by
  revert h
  unfold pyLowerChar
  split <;> intro h <;> first
    | exact absurd h (by decide)
    | exact h

lemma dropWhile_lower (l : List Char) :
    (l.map pyLowerChar).dropWhile isPySpace = (l.dropWhile isPySpace).map pyLowerChar := by
  induction l with
  | nil => rfl
  | cons c l ih =>
    simp only [List.map_cons, List.dropWhile_cons, pyLowerChar_space c]
    cases hc : isPySpace c with
    | false => simp [hc]
    | true => simp [hc, ih]

lemma pyStripL_lower (l : List Char) :
    pyStripL (l.map pyLowerChar) = (pyStripL l).map pyLowerChar := by
  unfold pyStripL
  rw [dropWhile_lower, ← List.map_reverse, dropWhile_lower, ← List.map_reverse]

lemma mem_pyStripL {a : Char} {l : List Char} (h : a ∈ pyStripL l) : a ∈ l := by
  unfold pyStripL at h
  rw [List.mem_reverse] at h
  have h2 := (List.dropWhile_sublist _).subset h
  rw [List.mem_reverse] at h2
  exact (List.dropWhile_sublist _).subset h2

lemma removeCommasL_eq_self {l : List Char} (h : ',' ∉ l) : removeCommasL l = l := by
  unfold removeCommasL
  apply List.filter_eq_self.mpr
  intro a ha
  simp only [ne_eq, decide_not, Bool.not_eq_eq_eq_not, Bool.not_true, decide_eq_false_iff_not]
  exact fun he => h (he ▸ ha)

lemma bodies_agree {t : List Char} (h : removeCommasL t = t) :
    parseNumberBodyModels t = parseNumberBodyPapers t := by
  unfold parseNumberBodyModels parseNumberBodyPapers
  rw [h]
  cases hk : endsWithChar t 'k' with
  | true => simp [hk]
  | false =>
    cases hm : endsWithChar t 'm' with
    | true => simp [hk, hm]
    | false => simp [hk, hm, ite_self]

/-- C7 (amended): the two pipelines use two separate normalization functions
that are not extensionally equal; on comma-free input the models normalizer
agrees with the papers normalizer whenever it does not raise. -/
theorem parse_number_agree_on_comma_free :
    ∀ (s : String) (o : Option Int), ',' ∉ s.toList →
      parse_number s = .ok o → parse_number_papers s = o := by
  intro s o hc h
  unfold parse_number at h
  unfold parse_number_papers
  split at h
  · rename_i hs
    rw [if_pos hs]
    exact Except.ok.inj h
  · rename_i hs
    rw [if_neg hs]
    have hc2 : ',' ∉ pyStripL (s.toList.map pyLowerChar) := by
      intro hmem
      obtain ⟨b, hb, hbl⟩ := List.mem_map.mp (mem_pyStripL hmem)
      exact hc ((pyLowerChar_comma hbl) ▸ hb)
    have e2 : removeCommasL ((pyStripL s.toList).map pyLowerChar) =
        pyStripL (s.toList.map pyLowerChar) := by
      rw [← pyStripL_lower]
      exact removeCommasL_eq_self hc2
    rw [e2, ← bodies_agree (removeCommasL_eq_self hc2)]
    cases hb : parseNumberBodyModels (pyStripL (s.toList.map pyLowerChar)) with
    | ok v =>
      rw [hb] at h
      exact Except.ok.inj h
    | error e =>
      rw [hb] at h
      cases e with
      | valueError => exact Except.ok.inj h
      | overflowError => exact Except.noConfusion h
      | attributeError => exact Except.noConfusion h

/-- C7 amended witness: the agreement theorem at the comma-free input `"12k"`. -/
theorem parse_number_agree_on_comma_free_witness :
    parse_number_papers "12k" = some 12000 :=
  parse_number_agree_on_comma_free "12k" (some 12000) (by decide) (by decide)

/-! Sign analysis of the normalizers: without a minus sign in the source text,
every produced integer is non-negative. -/

lemma parseDecimalCore_nonneg {ip fp r2 : List Char} {v : DecVal}
    (h : parseDecimalCore ip fp r2 = some v) : 0 ≤ v.num := by
  unfold parseDecimalCore at h
  split at h
  · exact Option.noConfusion h
  · split at h
    · rw [← Option.some.inj h]
      exact Int.natCast_nonneg _
    · split at h <;> split at h <;>
        first
          | exact Option.noConfusion h
          | (rw [← Option.some.inj h]; exact Int.natCast_nonneg _)
    · split at h <;> split at h <;>
        first
          | exact Option.noConfusion h
          | (rw [← Option.some.inj h]; exact Int.natCast_nonneg _)
    · exact Option.noConfusion h

lemma parseDecimal_nonneg {cs : List Char} {v : DecVal} (h : parseDecimal cs = some v) :
    0 ≤ v.num := by
  unfold parseDecimal at h
  split at h <;> exact parseDecimalCore_nonneg h

lemma mkFloat_finite {w v : DecVal} (h : mkFloat w = .finite v) : v = w := by
  unfold mkFloat at h
  split at h
  · exact PyFloat.noConfusion h
  · split at h
    · exact PyFloat.noConfusion h
    · exact (PyFloat.finite.inj h).symm

lemma pyFloatPos_finite_nonneg {l : List Char} {v : DecVal}
    (h : pyFloatPos l = .ok (.finite v)) : 0 ≤ v.num := by
  simp only [pyFloatPos] at h
  split at h
  · exact absurd (Except.ok.inj h) (by simp)
  · split at h
    · exact absurd (Except.ok.inj h) (by simp)
    · split at h
      · rename_i w hw
        rw [mkFloat_finite (Except.ok.inj h)]
        exact parseDecimal_nonneg hw
      · exact Except.noConfusion h

lemma pyFloatParse_nonneg {l : List Char} {v : DecVal} (hm : '-' ∉ l)
    (h : pyFloatParse l = .ok (.finite v)) : 0 ≤ v.num := by
  unfold pyFloatParse at h
  split at h
  · rename_i r heq
    have hmem : '-' ∈ pyStripL l := by rw [heq]; exact List.mem_cons_self _ _
    exact absurd (mem_pyStripL hmem) hm
  · exact pyFloatPos_finite_nonneg h
  · exact pyFloatPos_finite_nonneg h

lemma pyFloatMulNat_finite {f : PyFloat} {n : Nat} {v : DecVal}
    (h : pyFloatMulNat f n = .finite v) : ∃ w, f = .finite w ∧ v.num = w.num * (n : Int) := by
  cases f with
  | finite w =>
    refine ⟨w, rfl, ?_⟩
    rw [mkFloat_finite h]
  | inf => exact PyFloat.noConfusion h
  | ninf => exact PyFloat.noConfusion h
  | nan => exact PyFloat.noConfusion h

lemma pyIntOfFloat_ok {f : PyFloat} {z : Int} (h : pyIntOfFloat f = .ok z) :
    ∃ v, f = .finite v ∧ z = decTrunc v := by
  cases f with
  | finite v => exact ⟨v, rfl, (Except.ok.inj h).symm⟩
  | inf => exact Except.noConfusion h
  | ninf => exact Except.noConfusion h
  | nan => exact Except.noConfusion h

lemma decTrunc_nonneg {v : DecVal} (h : 0 ≤ v.num) : 0 ≤ decTrunc v := by
  unfold decTrunc
  rw [if_neg (by omega)]
  exact Int.natCast_nonneg _

lemma mem_removeCommasL {a : Char} {l : List Char} (h : a ∈ removeCommasL l) : a ∈ l :=
  List.mem_of_mem_filter h

lemma pyIntParse_nonneg {l : List Char} {z : Int} (hm : '-' ∉ l)
    (h : pyIntParse l = .ok z) : 0 ≤ z := by
  unfold pyIntParse at h
  split at h
  · split at h
    · rw [← Except.ok.inj h]
      exact Int.natCast_nonneg _
    · exact Except.noConfusion h
  · rename_i ds heq
    have hmem : '-' ∈ pyStripL l := by rw [heq]; exact List.mem_cons_self _ _
    exact absurd (mem_pyStripL hmem) hm
  · split at h
    · rw [← Except.ok.inj h]
      exact Int.natCast_nonneg _
    · exact Except.noConfusion h

lemma parseNumberBodyModels_nonneg {t : List Char} {z : Int} (hm : '-' ∉ t)
    (h : parseNumberBodyModels t = .ok z) : 0 ≤ z := by
  have hdl : '-' ∉ t.dropLast := fun hx => hm ((List.dropLast_sublist t).subset hx)
  unfold parseNumberBodyModels at h
  split at h
  · cases hf : pyFloatParse t.dropLast with
    | ok f =>
      rw [hf, exbind_ok] at h
      obtain ⟨v, hfin, hz⟩ := pyIntOfFloat_ok h
      obtain ⟨w, hw, hnum⟩ := pyFloatMulNat_finite hfin
      subst hw
      rw [hz]
      apply decTrunc_nonneg
      rw [hnum]
      exact mul_nonneg (pyFloatParse_nonneg hdl hf) (Int.natCast_nonneg _)
    | error e =>
      rw [hf, exbind_err] at h
      exact Except.noConfusion h
  · split at h
    · cases hf : pyFloatParse t.dropLast with
      | ok f =>
        rw [hf, exbind_ok] at h
        obtain ⟨v, hfin, hz⟩ := pyIntOfFloat_ok h
        obtain ⟨w, hw, hnum⟩ := pyFloatMulNat_finite hfin
        subst hw
        rw [hz]
        apply decTrunc_nonneg
        rw [hnum]
        exact mul_nonneg (pyFloatParse_nonneg hdl hf) (Int.natCast_nonneg _)
      | error e =>
        rw [hf, exbind_err] at h
        exact Except.noConfusion h
    · exact pyIntParse_nonneg (fun hx => hm (mem_removeCommasL hx)) h

lemma parseNumberBodyPapers_nonneg {t : List Char} {z : Int} (hm : '-' ∉ t)
    (h : parseNumberBodyPapers t = .ok z) : 0 ≤ z := by
  have hdl : '-' ∉ t.dropLast := fun hx => hm ((List.dropLast_sublist t).subset hx)
  unfold parseNumberBodyPapers at h
  split at h
  · cases hf : pyFloatParse t.dropLast with
    | ok f =>
      rw [hf, exbind_ok] at h
      obtain ⟨v, hfin, hz⟩ := pyIntOfFloat_ok h
      obtain ⟨w, hw, hnum⟩ := pyFloatMulNat_finite hfin
      subst hw
      rw [hz]
      apply decTrunc_nonneg
      rw [hnum]
      exact mul_nonneg (pyFloatParse_nonneg hdl hf) (Int.natCast_nonneg _)
    | error e =>
      rw [hf, exbind_err] at h
      exact Except.noConfusion h
  · split at h
    · cases hf : pyFloatParse t.dropLast with
      | ok f =>
        rw [hf, exbind_ok] at h
        obtain ⟨v, hfin, hz⟩ := pyIntOfFloat_ok h
        obtain ⟨w, hw, hnum⟩ := pyFloatMulNat_finite hfin
        subst hw
        rw [hz]
        apply decTrunc_nonneg
        rw [hnum]
        exact mul_nonneg (pyFloatParse_nonneg hdl hf) (Int.natCast_nonneg _)
      | error e =>
        rw [hf, exbind_err] at h
        exact Except.noConfusion h
    · split at h
      · exact pyIntParse_nonneg hm h
      · exact pyIntParse_nonneg hm h

/-- C8 (amended): numeric fields are optional integers, never malformed
strings (the normalizers' result types), and both normalizers return a
non-negative integer whenever the source text contains no minus sign; but a
minus sign passes straight through, so negative values can be emitted. -/
theorem parse_number_nonneg_without_minus :
    (∀ (s : String) (v : Int), parse_number s = .ok (some v) → '-' ∉ s.toList → 0 ≤ v) ∧
    (∀ (s : String) (v : Int), parse_number_papers s = some v → '-' ∉ s.toList → 0 ≤ v) := by
  constructor
  · intro s v h hm
    unfold parse_number at h
    split at h
    · exact absurd (Except.ok.inj h) (by simp)
    · have hm2 : '-' ∉ pyStripL (s.toList.map pyLowerChar) := by
        intro hx
        obtain ⟨b, hb, hbl⟩ := List.mem_map.mp (mem_pyStripL hx)
        exact hm ((pyLowerChar_minus hbl) ▸ hb)
      cases hb : parseNumberBodyModels (pyStripL (s.toList.map pyLowerChar)) with
      | ok w =>
        rw [hb] at h
        rw [← Option.some.inj (Except.ok.inj h)]
        exact parseNumberBodyModels_nonneg hm2 hb
      | error e =>
        rw [hb] at h
        cases e with
        | valueError => exact absurd (Except.ok.inj h) (by simp)
        | overflowError => exact Except.noConfusion h
        | attributeError => exact Except.noConfusion h
  · intro s v h hm
    unfold parse_number_papers at h
    split at h
    · exact Option.noConfusion h
    · have hm2 : '-' ∉ removeCommasL ((pyStripL s.toList).map pyLowerChar) := by
        intro hx
        obtain ⟨b, hb, hbl⟩ := List.mem_map.mp (mem_removeCommasL hx)
        exact hm (mem_pyStripL ((pyLowerChar_minus hbl) ▸ hb))
      cases hb : parseNumberBodyPapers (removeCommasL ((pyStripL s.toList).map pyLowerChar)) with
      | ok w =>
        rw [hb] at h
        rw [← Option.some.inj h]
        exact parseNumberBodyPapers_nonneg hm2 hb
      | error e =>
        rw [hb] at h
        exact Option.noConfusion h

/-- C8 amended witness: the sign theorem at the minus-free input `"7"`. -/
theorem parse_number_nonneg_without_minus_witness : (0 : Int) ≤ 7 :=
  parse_number_nonneg_without_minus.1 "7" 7 (by decide) (by decide)

end Crawl
